import Mathlib

/-!
Shallow embedding of the cluster coordination layer of the subject
repository: `internal/database/cluster.go` (package `database`), together
with the piece of the inbound HTTP route table of
`internal/server/routes.go` that one claim depends on.

Modelling conventions:

* A Go `*Node` record is the structure `Node` below; `int64` timestamps
  are `Int`.
* The registry `c.nodes` is a Go `map[string]*Node`.  We embed one
  enumeration of that map as a `List Node` whose elements have pairwise
  distinct `ID`s (Go map keys are unique).  Go's map iteration order is
  unspecified and may differ between two iterations of the very same
  content, so two lists that are permutations of each other represent the
  same registry content observed by two different `range` loops.
* Go's 64-bit `int` is `Int` wrapped to `[-2^63, 2^63)` by `wrap64`;
  Go's `%` on `int` is truncated remainder, i.e. `Int.tmod`.
* Network effects (liveness probes, replication pushes) are oracles passed
  in as functions; the code only ever branches on their results.
-/

namespace JettraDB

/-- `Node` (cluster.go:18-24): identity and liveness record of a cluster
member. -/
structure Node where
  ID : String
  Address : String
  Port : String
  Status : String
  LastSeen : Int
  deriving DecidableEq, Repr, Inhabited

/-- `GetActiveNodes` (cluster.go:112-124): walk the registry in map
iteration order and keep the nodes whose `Status` is `"active"`.  The
argument `reg` is the enumeration of the registry map produced by the
`range` loop of this particular call. -/
def GetActiveNodes (reg : List Node) : List Node :=
  reg.filter (fun n => n.Status == "active")

/-- Two's-complement wrap of an integer into Go's 64-bit `int` range
`[-2^63, 2^63)`. -/
def wrap64 (z : Int) : Int :=
  (z + 2 ^ 63) % 2 ^ 64 - 2 ^ 63

/-- One step of the hash loop of `GetPartitionForKey` (cluster.go:270-272):
`hash = (hash << 5) - hash + int(r)`, every arithmetic operation wrapping
on Go's 64-bit `int`; `r` is the rune (Unicode code point). -/
def hashStep (h : Int) (c : Char) : Int :=
  wrap64 (wrap64 (wrap64 (h * 32) - h) + (c.toNat : Int))

/-- The full hash of `GetPartitionForKey` (cluster.go:269-272): seeded at 0
and folded left-to-right over the key's runes. -/
def keyHash (key : List Char) : Int :=
  key.foldl hashStep 0

/-- Index computation of `GetPartitionForKey` (cluster.go:274-277):
`index := hash % len(activeNodes)` with Go's truncated `%`, then
`if index < 0 { index = -index }`. -/
def partitionIndex (key : List Char) (n : Nat) : Int :=
  let index := Int.tmod (keyHash key) (n : Int)
  if index < 0 then -index else index

/-- `GetPartitionForKey` (cluster.go:262-280), parameterised by the
active-node snapshot its inner `GetActiveNodes()` call returned: `nil` on
an empty snapshot, else `activeNodes[index]`. -/
def GetPartitionForKey (key : List Char) (activeNodes : List Node) : Option Node :=
  if activeNodes.length = 0 then
    none
  else
    some (activeNodes.getD (partitionIndex key activeNodes.length).toNat default)

/-- `GetPartitionForKey` as called on a registry: the method snapshots the
active nodes itself (cluster.go:263); `reg` is the map enumeration that
this call's inner `range` loop produced. -/
def GetPartitionForKeyOf (reg : List Node) (key : List Char) : Option Node :=
  GetPartitionForKey key (GetActiveNodes reg)

/-- Go map lookup `c.nodes[nodeID]` on the list embedding. -/
def getById (reg : List Node) (nodeID : String) : Option Node :=
  reg.find? (fun n => n.ID == nodeID)

/-- Go map assignment `c.nodes[n.ID] = n` on the list embedding: replace
the (unique) entry with the same `ID` when present, else append. -/
def mapInsert (reg : List Node) (n : Node) : List Node :=
  if reg.any (fun m => m.ID == n.ID) then
    reg.map (fun m => if m.ID == n.ID then n else m)
  else
    reg ++ [n]

/-- `AddNode` (cluster.go:90-98): stamp `node.LastSeen = time.Now().Unix()`
(`now` here), then store the node under its `ID`.  The node's `Status` is
whatever the caller passed; `AddNode` itself never touches it. -/
def AddNode (now : Int) (reg : List Node) (node : Node) : List Node :=
  mapInsert reg { node with LastSeen := now }

/-- `RemoveNode` (cluster.go:101-109): if an entry with this `ID` exists,
set its `Status` to `"inactive"`; the entry is never deleted from the map,
and an absent `ID` is a no-op. -/
def RemoveNode (reg : List Node) (nodeID : String) : List Node :=
  match reg.find? (fun n => n.ID == nodeID) with
  | none => reg
  | some _ =>
      reg.map (fun m =>
        if m.ID == nodeID then { m with Status := "inactive" } else m)

/-- `updateNodeStatus` (cluster.go:183-195): if an entry with this `ID`
exists, mark it `"active"` with `LastSeen = now` when `alive`, else mark it
`"inactive"` leaving `LastSeen` alone. -/
def updateNodeStatus (now : Int) (reg : List Node) (nodeID : String) (alive : Bool) :
    List Node :=
  match reg.find? (fun n => n.ID == nodeID) with
  | none => reg
  | some _ =>
      reg.map (fun m =>
        if m.ID == nodeID then
          if alive then { m with Status := "active", LastSeen := now }
          else { m with Status := "inactive" }
        else m)

/-- The nodes `performHeartbeat` actually probes (cluster.go:159-165): the
snapshot of all registry entries with the `node.ID == c.selfNode.ID`
entries skipped by `continue`. -/
def heartbeatTargets (selfId : String) (reg : List Node) : List Node :=
  reg.filter (fun n => !(n.ID == selfId))

/-- `performHeartbeat` (cluster.go:151-167): snapshot every registry entry,
skip self, probe each remaining node (`probe` is the network oracle
standing for `pingNode`, cluster.go:170-180) and fold the resulting
`updateNodeStatus` calls over the registry.  `now` stands for the probe
round's `time.Now().Unix()` values. -/
def performHeartbeat (now : Int) (selfId : String) (reg : List Node)
    (probe : Node → Bool) : List Node :=
  (heartbeatTargets selfId reg).foldl
    (fun acc n => updateNodeStatus now acc n.ID (probe n)) reg

/-- Effect on the local registry of an inbound gossip membership message.
`SetupRoutes` (routes.go:23-55) registers no handler for
`POST /cluster/gossip`: the request falls through to the catch-all
`notFoundHandler` (routes.go:53-54, 523-528), which writes a 404 response
and never touches the cluster; and on the sending side `exchangeGossip`
(cluster.go:239-259) discards the peer's response body — its trailing
comment reads "This would normally merge the membership lists".  So
receiving a membership snapshot leaves the registry exactly as it was. -/
def receiveGossip (reg : List Node) (_incoming : List Node) : List Node :=
  reg

/-- Result of one `ReplicateData` call: the returned `error` (as
`Option String`), the replica set the node-selection loop built, the peers
a push was attempted to, and the pushes whose error was logged. -/
structure ReplicateOutcome where
  err : Option String
  selected : List Node
  attempted : List Node
  failed : List Node
  deriving DecidableEq, Repr

/-- `ReplicateData` (cluster.go:283-326).  `replicationFactor` is
`c.config.ReplicationFactor`; `reg` the map enumeration seen by this
call's `GetActiveNodes()`; `pushErr` the network oracle standing for
`replicateToNode` (cluster.go:329-349).  Structure mirrors the source:
early return on `replicationFactor <= 1`; error when
`len(activeNodes) < replicationFactor`; otherwise primary =
`GetPartitionForKey(key)`, `replicationFactor - 1` ring-walk replicas at
indices `(primaryIdx + i) % len(activeNodes)` (the loop runs for
`1 <= i < min replicationFactor len(activeNodes)` and recomputes the same
`primaryIdx` each pass, with `primaryIdx` defaulting to 0 when the scan
finds no match), then one push per selected non-self node, errors logged
and dropped, final result `nil`.  The `none` branch of the inner match is
unreachable in the guarded path (the snapshot is non-empty there); on it
Go would dereference a nil pointer. -/
def ReplicateData (replicationFactor : Int) (selfId : String) (reg : List Node)
    (key : List Char) (pushErr : Node → Option String) : ReplicateOutcome :=
  if replicationFactor ≤ 1 then
    ⟨none, [], [], []⟩
  else
    let activeNodes := GetActiveNodes reg
    if (activeNodes.length : Int) < replicationFactor then
      ⟨some s!"not enough active nodes for replication factor {replicationFactor}", [], [], []⟩
    else
      match GetPartitionForKey key activeNodes with
      | none => ⟨none, [], [], []⟩
      | some primary =>
          let primaryIdx : Nat :=
            match activeNodes.findIdx? (fun n => n.ID == primary.ID) with
            | some j => j
            | none => 0
          let count := min replicationFactor.toNat activeNodes.length
          let selected := primary ::
            (List.range' 1 (count - 1)).map
              (fun i => activeNodes.getD ((primaryIdx + i) % activeNodes.length) primary)
          let attempted := selected.filter (fun n => !(n.ID == selfId))
          ⟨none, selected, attempted, attempted.filter (fun n => (pushErr n).isSome)⟩

/-- The rolling polynomial accumulator of spec §4.4: `h = h*31 + codepoint`
on fixed-width (64-bit wrapping) integers.  This is the spec-side
definition, to be compared with the source-side `hashStep`. -/
def polyStep (h : Int) (c : Char) : Int :=
  wrap64 (h * 31 + (c.toNat : Int))

/-- The spec-side hash: `polyStep` seeded at 0, folded left-to-right. -/
def polyHash (key : List Char) : Int :=
  key.foldl polyStep 0

/-! ### Helper lemmas -/

theorem hashStep_eq_polyStep (h : Int) (c : Char) : hashStep h c = polyStep h c := by
  simp only [hashStep, polyStep, wrap64]
  omega

theorem partitionIndex_nonneg (key : List Char) (n : Nat) :
    0 ≤ partitionIndex key n := by
  unfold partitionIndex
  by_cases h : Int.tmod (keyHash key) (n : Int) < 0
  · rw [if_pos h]; omega
  · rw [if_neg h]; omega

theorem partitionIndex_toNat_lt (key : List Char) (n : Nat) (hn : 0 < n) :
    (partitionIndex key n).toNat < n := by
  unfold partitionIndex
  cases hk : keyHash key with
  | ofNat m =>
      simp only [Int.tmod, Int.ofNat_eq_natCast]
      rw [if_neg (by omega)]
      have h := Nat.mod_lt m hn
      omega
  | negSucc m =>
      have heq : Int.tmod (Int.negSucc m) (n : Int) = -Int.ofNat ((m + 1) % n) := rfl
      simp only [heq, Int.ofNat_eq_natCast]
      have h := Nat.mod_lt (m + 1) hn
      by_cases h0 : (m + 1) % n = 0
      · rw [h0]
        norm_num
        omega
      · rw [if_pos (by omega)]
        omega

theorem getPartitionForKey_mem (key : List Char) (ns : List Node) (hns : 0 < ns.length) :
    ∃ x ∈ ns, GetPartitionForKey key ns = some x := by
  have hlt := partitionIndex_toNat_lt key ns.length hns
  refine ⟨ns.get ⟨(partitionIndex key ns.length).toNat, hlt⟩, List.get_mem _ _ _, ?_⟩
  unfold GetPartitionForKey
  rw [if_neg (by omega)]
  rw [List.getD_eq_getElem?_getD, List.getElem?_eq_getElem hlt]
  rfl

theorem find_map_of_preserve {p : Node → Bool} {g : Node → Node}
    (hp : ∀ m, p (g m) = p m) (hfix : ∀ m, p m = true → g m = m) (l : List Node) :
    (l.map g).find? p = l.find? p := by
  induction l with
  | nil => rfl
  | cons m l ih =>
      by_cases hm : p m = true
      · simp [List.find?, hp m, hm, hfix m hm]
      · have hm' : p m = false := by simpa using hm
        simp [List.find?, hp m, hm', ih]

theorem find_append_singleton_not {p : Node → Bool} (l : List Node) (x : Node)
    (hx : p x = false) :
    (l ++ [x]).find? p = l.find? p := by
  induction l with
  | nil => simp [List.find?, hx]
  | cons m l ih =>
      by_cases hm : p m = true
      · simp [List.find?, hm]
      · have hm' : p m = false := by simpa using hm
        simp [List.find?, hm', ih]

theorem getById_updateNodeStatus_other (now : Int) (reg : List Node) (id selfId : String)
    (alive : Bool) (hne : id ≠ selfId) :
    getById (updateNodeStatus now reg id alive) selfId = getById reg selfId := by
  unfold updateNodeStatus getById
  cases hfind : reg.find? (fun n => n.ID == id) with
  | none => rfl
  | some _ =>
      apply find_map_of_preserve
      · intro m
        by_cases hmi : (m.ID == id) = true
        · cases alive <;> simp [hmi]
        · have hmi' : (m.ID == id) = false := by simpa using hmi
          simp [hmi']
      · intro m hm
        have hms : m.ID = selfId := by simpa [beq_iff_eq] using hm
        have : (m.ID == id) = false := by
          simp [beq_iff_eq, hms]
          exact fun h => hne h.symm
        simp [this]

theorem getById_removeNode_other (reg : List Node) (id selfId : String)
    (hne : id ≠ selfId) :
    getById (RemoveNode reg id) selfId = getById reg selfId := by
  unfold RemoveNode getById
  cases hfind : reg.find? (fun n => n.ID == id) with
  | none => rfl
  | some _ =>
      apply find_map_of_preserve
      · intro m
        by_cases hmi : (m.ID == id) = true
        · simp [hmi]
        · have hmi' : (m.ID == id) = false := by simpa using hmi
          simp [hmi']
      · intro m hm
        have hms : m.ID = selfId := by simpa [beq_iff_eq] using hm
        have : (m.ID == id) = false := by
          simp [beq_iff_eq, hms]
          exact fun h => hne h.symm
        simp [this]

theorem getById_addNode_other (now : Int) (reg : List Node) (node : Node)
    (selfId : String) (hne : node.ID ≠ selfId) :
    getById (AddNode now reg node) selfId = getById reg selfId := by
  unfold AddNode mapInsert getById
  by_cases hany : reg.any (fun m => m.ID == { node with LastSeen := now }.ID) = true
  · rw [if_pos hany]
    apply find_map_of_preserve
    · intro m
      by_cases hmi : (m.ID == ({ node with LastSeen := now } : Node).ID) = true
      · have hm' : m.ID = node.ID := by simpa [beq_iff_eq] using hmi
        simp [hmi, beq_iff_eq, hm', hne]
      · have hmi' : (m.ID == ({ node with LastSeen := now } : Node).ID) = false := by
          simpa using hmi
        simp [hmi']
    · intro m hm
      have hms : m.ID = selfId := by simpa [beq_iff_eq] using hm
      have : (m.ID == ({ node with LastSeen := now } : Node).ID) = false := by
        simp [beq_iff_eq, hms]
        exact fun h => hne h.symm
      simp [this]
  · rw [if_neg hany]
    apply find_append_singleton_not
    simp [beq_iff_eq, hne]

theorem getById_heartbeat_fold (now : Int) (selfId : String) (probe : Node → Bool) :
    ∀ l : List Node, (∀ n ∈ l, n.ID ≠ selfId) → ∀ acc : List Node,
      getById (l.foldl (fun acc n => updateNodeStatus now acc n.ID (probe n)) acc) selfId
        = getById acc selfId := by
  intro l
  induction l with
  | nil =>
      intro _ acc
      rfl
  | cons m l ih =>
      intro hl acc
      simp only [List.foldl_cons]
      rw [ih (fun n hn => hl n (List.mem_cons_of_mem _ hn))]
      exact getById_updateNodeStatus_other now acc m.ID selfId (probe m)
        (hl m (List.mem_cons_self _ _))

/-! ### Concrete records used in witnesses and counterexamples -/

/-- A concrete active node. -/
def nA : Node := ⟨"node-a", "localhost", "9090", "active", 1⟩

/-- A second concrete active node with a distinct id. -/
def nB : Node := ⟨"node-b", "localhost", "9091", "active", 1⟩

/-- A third concrete active node with a distinct id. -/
def nC : Node := ⟨"node-c", "localhost", "9092", "active", 1⟩

/-- The local registry record of node X in the gossip scenario of the spec:
`last_seen = 50`. -/
def gossipLocalX : Node := ⟨"node-x", "localhost", "9093", "active", 50⟩

/-- The incoming gossip record of node X: `last_seen = 100`. -/
def gossipRemoteX : Node := ⟨"node-x", "localhost", "9093", "active", 100⟩

/-! ### Claim theorems -/

/-- C9: the hash computed by `GetPartitionForKey` — step
`hash = (hash << 5) - hash + int(r)` on Go's wrapping 64-bit int — equals
the spec's rolling polynomial accumulator `h = h*31 + codepoint` (same
fixed-width arithmetic), step by step, over every prefix (any fold seed and
any key), and hence on the whole key. -/
theorem keyHash_eq_polyHash :
    (∀ h c, hashStep h c = polyStep h c) ∧
    (∀ (key : List Char) (init : Int), key.foldl hashStep init = key.foldl polyStep init) ∧
    (∀ key : List Char, keyHash key = polyHash key) := by
  have hfun : hashStep = polyStep := funext fun h => funext fun c => hashStep_eq_polyStep h c
  refine ⟨fun h c => hashStep_eq_polyStep h c, fun key init => by rw [hfun], fun key => ?_⟩
  simp [keyHash, polyHash, hfun]

/-- C3: `GetPartitionForKey` returns `nil` exactly on an empty active-node
snapshot; on a snapshot of size N > 0 the index it computes is in [0, N),
so it never indexes out of bounds and always returns an element of the
snapshot. -/
theorem getPartitionForKey_safe (key : List Char) (ns : List Node) :
    (ns.length = 0 → GetPartitionForKey key ns = none) ∧
    (0 < ns.length →
      0 ≤ partitionIndex key ns.length ∧
      (partitionIndex key ns.length).toNat < ns.length ∧
      ∃ x ∈ ns, GetPartitionForKey key ns = some x) := by
  constructor
  · intro h
    unfold GetPartitionForKey
    rw [if_pos h]
  · intro h
    exact ⟨partitionIndex_nonneg key ns.length, partitionIndex_toNat_lt key ns.length h,
      getPartitionForKey_mem key ns h⟩

/-- Witness for C3 at concrete inputs: the empty snapshot yields `none`,
and on a singleton snapshot the computed index is in bounds. -/
theorem getPartitionForKey_safe_witness :
    GetPartitionForKey [Char.ofNat 97] ([] : List Node) = none ∧
    (partitionIndex [Char.ofNat 97] [nA].length).toNat < [nA].length :=
  ⟨(getPartitionForKey_safe [Char.ofNat 97] []).1 (by decide),
   ((getPartitionForKey_safe [Char.ofNat 97] [nA]).2 (by decide)).2.1⟩

set_option maxRecDepth 8192 in
/-- C1 (evidence for the code bug): `[nA, nB]` and `[nB, nA]` are two legal
Go map iterations of the very same registry content (they are permutations
of each other), yet `GetActiveNodes` returns differently ordered snapshots
on them — neither call sorts by node-id — and `GetPartitionForKey` then
names two different owners for the same key on the same content. -/
theorem partition_owner_depends_on_iteration_order :
    ([nA, nB] : List Node).Perm [nB, nA] ∧
    GetActiveNodes [nA, nB] ≠ GetActiveNodes [nB, nA] ∧
    GetPartitionForKeyOf [nA, nB] [Char.ofNat 120] = some nA ∧
    GetPartitionForKeyOf [nB, nA] [Char.ofNat 120] = some nB ∧
    nA ≠ nB := by
  decide

/-- C2 (evidence for the code bug): receiving the gossip snapshot in which
node X carries `last_seen = 100` leaves the local registry exactly as it
was — X still has `last_seen = 50` — because no `/cluster/gossip` route
exists and `exchangeGossip` discards the peer's data without merging. -/
theorem receiveGossip_keeps_stale_lastSeen :
    receiveGossip [gossipLocalX] [gossipRemoteX] = [gossipLocalX] ∧
    gossipLocalX.LastSeen = 50 ∧ gossipRemoteX.LastSeen = 100 :=
  ⟨rfl, rfl, rfl⟩

/-- C10: `RemoveNode` with a node-id absent from the registry returns the
registry completely unchanged. -/
theorem removeNode_absent_id_noop (reg : List Node) (nodeID : String)
    (h : ∀ n ∈ reg, n.ID ≠ nodeID) :
    RemoveNode reg nodeID = reg := by
  unfold RemoveNode
  have hfind : reg.find? (fun n => n.ID == nodeID) = none := by
    apply List.find?_eq_none.mpr
    intro n hn
    simp [h n hn]
  rw [hfind]

/-- Witness for C10 at a concrete input: removing an unknown id from a
one-node registry changes nothing. -/
theorem removeNode_absent_id_noop_witness :
    RemoveNode [nA] "node-z" = [nA] :=
  removeNode_absent_id_noop [nA] "node-z" (by decide)

/-- C4 counterexample: `RemoveNode` applied to the self node's own id flips
the self record's status to `"inactive"` — nothing in `RemoveNode` skips
self — so it is not true that no cluster operation changes the self
record's status away from active. -/
theorem removeNode_self_demotes :
    RemoveNode [nA] nA.ID = [{ nA with Status := "inactive" }] ∧
    nA.Status = "active" ∧
    ({ nA with Status := "inactive" } : Node).Status ≠ "active" := by
  decide

/-- C4 (amended): the Failure Detector never probes self (`performHeartbeat`
skips every registry entry whose id equals the self id) and leaves the self
record untouched; and `AddNode`, `RemoveNode` and `updateNodeStatus` leave
the self record exactly as it was — in particular present with
`status = active` — whenever the node-id they are invoked with differs from
the self id.  (The id restriction is forced by the counterexample:
`RemoveNode` on the self id itself marks self inactive.) -/
theorem self_record_preserved (now : Int) (selfId id : String) (reg : List Node)
    (node : Node) (alive : Bool) (probe : Node → Bool)
    (hid : id ≠ selfId) (hnode : node.ID ≠ selfId) :
    (∀ n ∈ heartbeatTargets selfId reg, n.ID ≠ selfId) ∧
    getById (performHeartbeat now selfId reg probe) selfId = getById reg selfId ∧
    getById (RemoveNode reg id) selfId = getById reg selfId ∧
    getById (updateNodeStatus now reg id alive) selfId = getById reg selfId ∧
    getById (AddNode now reg node) selfId = getById reg selfId := by
  refine ⟨?_, ?_, ?_, ?_, ?_⟩
  · intro n hn
    have := List.of_mem_filter hn
    simpa [beq_iff_eq] using this
  · unfold performHeartbeat
    apply getById_heartbeat_fold
    intro n hn
    have := List.of_mem_filter hn
    simpa [beq_iff_eq] using this
  · exact getById_removeNode_other reg id selfId hid
  · exact getById_updateNodeStatus_other now reg id selfId alive hid
  · exact getById_addNode_other now reg node selfId hnode

/-- Witness for the amended C4 at concrete inputs: with self `node-a` and a
probe round that fails for everyone, plus a `RemoveNode`/`updateNodeStatus`
/`AddNode` on `node-b`, the self record `node-a` is untouched. -/
theorem self_record_preserved_witness :
    getById (performHeartbeat 9 "node-a" [nA, nB] (fun _ => false)) "node-a"
      = getById [nA, nB] "node-a" ∧
    getById (RemoveNode [nA, nB] "node-b") "node-a" = getById [nA, nB] "node-a" :=
  ⟨(self_record_preserved 9 "node-a" "node-b" [nA, nB] nB false (fun _ => false)
      (by decide) (by decide)).2.1,
   (self_record_preserved 9 "node-a" "node-b" [nA, nB] nB false (fun _ => false)
      (by decide) (by decide)).2.2.1⟩

/-- C8 counterexample: `AddNode` stamps `last_seen = now` on the record it
inserts even when that record's status is `"joining"` — a record whose
status is not being set to active still gets its `last_seen` updated. -/
theorem addNode_stamps_lastSeen_regardless :
    AddNode 7 [] ⟨"node-j", "localhost", "9094", "joining", 0⟩
      = [⟨"node-j", "localhost", "9094", "joining", 7⟩] ∧
    ("joining" : String) ≠ "active" := by
  decide

/-- C8 (amended): `updateNodeStatus` changes a record's `last_seen` only
when it simultaneously sets that record's status to `"active"` (a
successful probe), `RemoveNode` never changes any record's `last_seen`,
and — the exception the counterexample forces — `AddNode` stamps
`last_seen = now` on the record it inserts regardless of that record's
status, which it copies unchanged from its argument; every other record
`AddNode` leaves in the registry untouched. -/
theorem lastSeen_update_discipline (now : Int) (reg : List Node) (id : String)
    (alive : Bool) (node : Node) :
    (∀ (i : Nat) (n n' : Node), reg[i]? = some n →
      (updateNodeStatus now reg id alive)[i]? = some n' →
      n'.LastSeen ≠ n.LastSeen →
      alive = true ∧ n'.Status = "active" ∧ n'.LastSeen = now) ∧
    (∀ (i : Nat) (n n' : Node), reg[i]? = some n → (RemoveNode reg id)[i]? = some n' →
      n'.LastSeen = n.LastSeen) ∧
    (∀ m ∈ AddNode now reg node,
      m ∈ reg ∨ (m.LastSeen = now ∧ m.Status = node.Status)) := by
  refine ⟨?_, ?_, ?_⟩
  · intro i n n' hn hn' hne
    unfold updateNodeStatus at hn'
    cases hfind : reg.find? (fun m => m.ID == id) with
    | none =>
        rw [hfind] at hn'
        have hn'' : reg[i]? = some n' := hn'
        rw [hn] at hn''
        cases hn''
        exact absurd rfl hne
    | some _ =>
        rw [hfind] at hn'
        have hmap : (reg.map (fun m =>
            if m.ID == id then
              if alive then { m with Status := "active", LastSeen := now }
              else { m with Status := "inactive" }
            else m))[i]? = some n' := hn'
        rw [List.getElem?_map, hn] at hmap
        have heq : (if n.ID == id then
            if alive then ({ n with Status := "active", LastSeen := now } : Node)
            else { n with Status := "inactive" }
          else n) = n' := by simpa using hmap
        by_cases hni : (n.ID == id) = true
        · cases alive with
          | true =>
              rw [hni] at heq
              simp only [if_true] at heq
              rw [← heq]
              exact ⟨rfl, rfl, rfl⟩
          | false =>
              rw [hni] at heq
              simp only [if_true] at heq
              rw [← heq] at hne
              exact absurd rfl hne
        · have hni' : (n.ID == id) = false := by simpa using hni
          rw [hni'] at heq
          simp only [Bool.false_eq_true, if_false] at heq
          rw [← heq] at hne
          exact absurd rfl hne
  · intro i n n' hn hn'
    unfold RemoveNode at hn'
    cases hfind : reg.find? (fun m => m.ID == id) with
    | none =>
        rw [hfind] at hn'
        have hn'' : reg[i]? = some n' := hn'
        rw [hn] at hn''
        cases hn''
        rfl
    | some _ =>
        rw [hfind] at hn'
        have hmap : (reg.map (fun m =>
            if m.ID == id then { m with Status := "inactive" } else m))[i]?
              = some n' := hn'
        rw [List.getElem?_map, hn] at hmap
        have heq : (if n.ID == id then ({ n with Status := "inactive" } : Node) else n)
            = n' := by simpa using hmap
        by_cases hni : (n.ID == id) = true
        · rw [hni] at heq
          simp only [if_true] at heq
          rw [← heq]
        · have hni' : (n.ID == id) = false := by simpa using hni
          rw [hni'] at heq
          simp only [Bool.false_eq_true, if_false] at heq
          rw [← heq]
  · intro m hm
    unfold AddNode mapInsert at hm
    by_cases hany : reg.any (fun x => x.ID == ({ node with LastSeen := now } : Node).ID) = true
    · rw [if_pos hany] at hm
      obtain ⟨x, hx, hgx⟩ := List.mem_map.mp hm
      by_cases hxi : (x.ID == ({ node with LastSeen := now } : Node).ID) = true
      · rw [if_pos hxi] at hgx
        right
        rw [← hgx]
        exact ⟨rfl, rfl⟩
      · rw [if_neg hxi] at hgx
        left
        rw [← hgx]
        exact hx
    · rw [if_neg hany] at hm
      rcases List.mem_append.mp hm with hin | hone
      · exact Or.inl hin
      · right
        have : m = { node with LastSeen := now } := by simpa using hone
        rw [this]
        exact ⟨rfl, rfl⟩

/-- Witness for the amended C8 at concrete inputs: marking `node-a`
inactive via `RemoveNode` keeps its `last_seen` unchanged. -/
theorem lastSeen_update_discipline_witness :
    ({ nA with Status := "inactive" } : Node).LastSeen = nA.LastSeen :=
  (lastSeen_update_discipline 5 [nA] nA.ID false nB).2.1 0 nA
    { nA with Status := "inactive" } (by decide) (by decide)

/-- C5: with configured replication factor R ≤ 1, `ReplicateData` returns
success (`nil`) without attempting any outbound replication push; with
R > 1 it returns the insufficient-replicas error exactly when the number of
active nodes is below R, and in that error case it attempts no push
either. -/
theorem replicateData_gating (R : Int) (selfId : String) (reg : List Node)
    (key : List Char) (pushErr : Node → Option String) :
    (R ≤ 1 → ReplicateData R selfId reg key pushErr = ⟨none, [], [], []⟩) ∧
    (1 < R →
      ((ReplicateData R selfId reg key pushErr).err.isSome
        ↔ ((GetActiveNodes reg).length : Int) < R) ∧
      (((GetActiveNodes reg).length : Int) < R →
        (ReplicateData R selfId reg key pushErr).attempted = [])) := by
  constructor
  · intro h
    unfold ReplicateData
    rw [if_pos h]
  · intro h
    unfold ReplicateData
    rw [if_neg (by omega)]
    by_cases hlen : ((GetActiveNodes reg).length : Int) < R
    · rw [if_pos hlen]
      simp [hlen]
    · rw [if_neg hlen]
      cases hp : GetPartitionForKey key (GetActiveNodes reg) with
      | none => simp [hlen, hp]
      | some primary => simp [hlen, hp]

/-- Witness for C5 at concrete inputs: R = 1 is a no-op success with no
push attempted, applied to a two-node registry. -/
theorem replicateData_gating_witness :
    ReplicateData 1 "node-a" [nA, nB] [Char.ofNat 107] (fun _ => none)
      = ⟨none, [], [], []⟩ :=
  (replicateData_gating 1 "node-a" [nA, nB] [Char.ofNat 107] (fun _ => none)).1
    (by decide)

/-- C7: whenever `ReplicateData` proceeds past the replication-factor and
active-node-count checks, it returns success no matter what the individual
pushes do: the returned error, the replica set and the attempted pushes are
all independent of the push-outcome oracle (no error propagation, no
retry), and every selected non-self node is pushed to exactly once. -/
theorem replicateData_ignores_push_failures (R : Int) (selfId : String)
    (reg : List Node) (key : List Char) (pe pe' : Node → Option String)
    (hR : 1 < R) (hN : R ≤ ((GetActiveNodes reg).length : Int)) :
    (ReplicateData R selfId reg key pe).err = none ∧
    (ReplicateData R selfId reg key pe).selected
      = (ReplicateData R selfId reg key pe').selected ∧
    (ReplicateData R selfId reg key pe).attempted
      = (ReplicateData R selfId reg key pe').attempted ∧
    (ReplicateData R selfId reg key pe).attempted
      = (ReplicateData R selfId reg key pe).selected.filter
          (fun n => !(n.ID == selfId)) := by
  have h1 : ¬ (R ≤ 1) := by omega
  have h2 : ¬ (((GetActiveNodes reg).length : Int) < R) := by omega
  cases hp : GetPartitionForKey key (GetActiveNodes reg) with
  | none => simp [ReplicateData, h1, h2, hp]
  | some primary => simp [ReplicateData, h1, h2, hp]

/-- Witness for C7 at concrete inputs: R = 2 on a two-node registry with
every push failing still returns success and pushes once to the non-self
node. -/
theorem replicateData_ignores_push_failures_witness :
    (ReplicateData 2 "node-a" [nA, nB] [Char.ofNat 107]
        (fun _ => some "boom")).err = none :=
  (replicateData_ignores_push_failures 2 "node-a" [nA, nB] [Char.ofNat 107]
    (fun _ => some "boom") (fun _ => none) (by decide) (by decide)).1

theorem perm_rot3 {α : Type _} (x y z : α) : ([y, z, x] : List α).Perm [x, y, z] := by
  show ([y, z] ++ [x]).Perm ([x] ++ [y, z])
  exact List.perm_append_comm

theorem perm_rot3' {α : Type _} (x y z : α) : ([z, x, y] : List α).Perm [x, y, z] := by
  show ([z] ++ [x, y]).Perm ([x, y] ++ [z])
  exact List.perm_append_comm

theorem replicateData_pass (R : Int) (selfId : String) (reg : List Node)
    (key : List Char) (pe : Node → Option String) (primary : Node)
    (h1 : ¬ R ≤ 1) (h2 : ¬ ((GetActiveNodes reg).length : Int) < R)
    (hp : GetPartitionForKey key (GetActiveNodes reg) = some primary) :
    ReplicateData R selfId reg key pe =
      (let activeNodes := GetActiveNodes reg
       let primaryIdx : Nat :=
         match activeNodes.findIdx? (fun n => n.ID == primary.ID) with
         | some j => j
         | none => 0
       let count := min R.toNat activeNodes.length
       let selected := primary ::
         (List.range' 1 (count - 1)).map
           (fun i => activeNodes.getD ((primaryIdx + i) % activeNodes.length) primary)
       let attempted := selected.filter (fun n => !(n.ID == selfId))
       ⟨none, selected, attempted, attempted.filter (fun n => (pe n).isSome)⟩) := by
  simp [ReplicateData, h1, h2, hp]

/-- C6: `ReplicateData` with replication factor 3 against an active-node
snapshot of exactly three distinct nodes selects all three as the replica
set — the primary returned by `GetPartitionForKey` plus the next two
snapshot indices modulo 3 — and attempts a replication push to exactly the
two selected nodes that are not self. -/
theorem replicateData_r3_three_nodes (key : List Char) (a b c : Node)
    (selfId : String) (reg : List Node) (pe : Node → Option String)
    (hact : GetActiveNodes reg = [a, b, c])
    (hab : a.ID ≠ b.ID) (hac : a.ID ≠ c.ID) (hbc : b.ID ≠ c.ID)
    (hself : selfId = a.ID ∨ selfId = b.ID ∨ selfId = c.ID) :
    (ReplicateData 3 selfId reg key pe).err = none ∧
    (ReplicateData 3 selfId reg key pe).selected.Perm [a, b, c] ∧
    (ReplicateData 3 selfId reg key pe).attempted.Perm
      (([a, b, c] : List Node).filter (fun n => !(n.ID == selfId))) ∧
    (ReplicateData 3 selfId reg key pe).attempted.length = 2 := by
  have h1 : ¬ ((3 : Int) ≤ 1) := by omega
  have hlen : (GetActiveNodes reg).length = 3 := by rw [hact]; rfl
  have h2 : ¬ (((GetActiveNodes reg).length : Int) < 3) := by rw [hlen]; omega
  obtain ⟨primary, hmem, hp⟩ :=
    getPartitionForKey_mem key (GetActiveNodes reg) (by omega)
  rw [hact] at hmem
  have hrw := replicateData_pass 3 selfId reg key pe primary h1 h2 hp
  rw [hact] at hrw
  have faa : (a.ID == a.ID) = true := by simp
  have fbb : (b.ID == b.ID) = true := by simp
  have fcc : (c.ID == c.ID) = true := by simp
  have fab : (a.ID == b.ID) = false := by rw [beq_eq_false_iff_ne]; exact hab
  have fba : (b.ID == a.ID) = false := by rw [beq_eq_false_iff_ne]; exact Ne.symm hab
  have fac : (a.ID == c.ID) = false := by rw [beq_eq_false_iff_ne]; exact hac
  have fca : (c.ID == a.ID) = false := by rw [beq_eq_false_iff_ne]; exact Ne.symm hac
  have fbc : (b.ID == c.ID) = false := by rw [beq_eq_false_iff_ne]; exact hbc
  have fcb : (c.ID == b.ID) = false := by rw [beq_eq_false_iff_ne]; exact Ne.symm hbc
  have hflen : (([a, b, c] : List Node).filter (fun n => !(n.ID == selfId))).length = 2 := by
    rcases hself with hs | hs | hs <;>
      subst hs <;>
      simp [List.filter, faa, fbb, fcc, fab, fba, fac, fca, fbc, fcb]
  have hsel : (ReplicateData 3 selfId reg key pe).selected.Perm [a, b, c] := by
    rcases List.mem_cons.mp hmem with h | hmem'
    · subst h
      rw [hrw]
      norm_num [List.findIdx?_cons, faa, fbb, fcc, fab, fba, fac, fca, fbc, fcb,
        List.range', List.getD]
    · rcases List.mem_cons.mp hmem' with h | hmem''
      · subst h
        rw [hrw]
        norm_num [List.findIdx?_cons, faa, fbb, fcc, fab, fba, fac, fca, fbc, fcb,
          List.range', List.getD]
        exact perm_rot3 _ _ _
      · have h : primary = c := by simpa using hmem''
        subst h
        rw [hrw]
        norm_num [List.findIdx?_cons, faa, fbb, fcc, fab, fba, fac, fca, fbc, fcb,
          List.range', List.getD]
        exact perm_rot3' _ _ _
  have hatt : (ReplicateData 3 selfId reg key pe).attempted
      = (ReplicateData 3 selfId reg key pe).selected.filter (fun n => !(n.ID == selfId)) := by
    rw [hrw]
  have hattperm : (ReplicateData 3 selfId reg key pe).attempted.Perm
      (([a, b, c] : List Node).filter (fun n => !(n.ID == selfId))) := by
    rw [hatt]
    exact hsel.filter _
  refine ⟨?_, hsel, hattperm, ?_⟩
  · rw [hrw]
  · rw [hattperm.length_eq]
    exact hflen

/-- Witness for C6 at concrete inputs: factor 3 on the three-node registry
`[nA, nB, nC]` with self `node-a` attempts exactly two pushes. -/
theorem replicateData_r3_three_nodes_witness :
    (ReplicateData 3 "node-a" [nA, nB, nC] [Char.ofNat 107]
        (fun _ => none)).attempted.length = 2 :=
  (replicateData_r3_three_nodes [Char.ofNat 107] nA nB nC "node-a" [nA, nB, nC]
    (fun _ => none) (by decide) (by decide) (by decide) (by decide)
    (Or.inl (by decide))).2.2.2

end JettraDB
